import Mathlib

/-!
Verification of the Pilcrow format-negotiation and directive-protocol layer.

The Rust sources (`src/extract.rs`, `src/select.rs`, `src/response.rs`,
`src/ws.rs`) are shallowly embedded below: `serde_json::Value` becomes the
inductive `Pilcrow.Json` (numbers are modelled as `Int`, which suffices for
every property considered here), axum responses become the record
`Pilcrow.HttpResponse` (with `Set-Cookie` headers carried structurally in
`setCookies`), and fallible serialization is modelled with `Option`.
-/

namespace Pilcrow

/-- Model of `serde_json::Value`.  Objects are association lists whose order
represents the map's iteration order; numbers are modelled as `Int`. -/
inductive Json where
  | null
  | bool (b : Bool)
  | num (n : Int)
  | str (s : String)
  | arr (elems : List Json)
  | obj (fields : List (String × Json))

/-- Field lookup in a JSON object's association list (first match wins,
as in `serde_json::Map::get`). -/
def objLookup (fields : List (String × Json)) (k : String) : Option Json :=
  (fields.find? (fun p => p.1 == k)).map (·.2)

/-- Embedding of `serde_json::Map::insert`: overwrite the value if the key is present,
otherwise add the binding. -/
def objInsert : List (String × Json) → String → Json → List (String × Json)
  | [], k, v => [(k, v)]
  | (k0, v0) :: rest, k, v =>
    if k0 == k then (k, v) :: rest else (k0, v0) :: objInsert rest k v

/-- Lookup of a field of a JSON value (`none` on non-objects). -/
def Json.lookup : Json → String → Option Json
  | .obj fields, k => objLookup fields k
  | _, _ => none

-- ════════════════════════════════════════════════════════════
-- extract.rs : RequestMode, SilcrowRequest, preferred_mode
-- ════════════════════════════════════════════════════════════

/-- Mode enum of `extract.rs` (`RequestMode`). -/
inductive RequestMode where
  | Html
  | Json
deriving DecidableEq

/-- Extractor struct of `extract.rs` (`SilcrowRequest`). -/
structure SilcrowRequest where
  is_silcrow : Bool
  accepts_html : Bool
  accepts_json : Bool
deriving DecidableEq

/-- Whether the character list `pat` occurs at the start of `s`. -/
def charsPrefixOf : List Char → List Char → Bool
  | [], _ => true
  | _ :: _, [] => false
  | a :: as_, b :: bs => a == b && charsPrefixOf as_ bs

/-- Whether the character list `pat` occurs somewhere inside `s`
(Rust `str::contains`). -/
def charsContains (pat : List Char) : List Char → Bool
  | [] => pat.isEmpty
  | c :: rest => charsPrefixOf pat (c :: rest) || charsContains pat rest

/-- Rust `str::contains` for substring patterns. -/
def containsSubstr (s pat : String) : Bool :=
  charsContains pat.data s.data

/-- Case-normalized header lookup (axum `HeaderMap::get`; header names are
written lowercased here, matching HTTP/2 normalization). -/
def headerGet (headers : List (String × String)) (name : String) : Option String :=
  (headers.find? (fun p => p.1 == name)).map (·.2)

/-- Embedding of `SilcrowRequest::from_request_parts` (extract.rs lines 35-54): the
push-client marker is the presence of the `silcrow-target` header, and the
accept flags are plain substring containment tests on the `Accept` header
(missing header treated as the empty string). -/
def from_request_parts (headers : List (String × String)) : SilcrowRequest :=
  let is_silcrow := (headerGet headers "silcrow-target").isSome
  let accept := (headerGet headers "accept").getD ""
  { is_silcrow
    accepts_html := containsSubstr accept "text/html"
    accepts_json := containsSubstr accept "application/json" }

/-- Embedding of `SilcrowRequest::preferred_mode` (extract.rs lines 62-80), transliterated
with the early returns flattened into an if-chain. -/
def SilcrowRequest.preferred_mode (self : SilcrowRequest) : RequestMode :=
  if self.is_silcrow && self.accepts_html then .Html
  else if self.is_silcrow && self.accepts_json then .Json
  else if self.accepts_html then .Html
  else .Json

-- ════════════════════════════════════════════════════════════
-- response.rs : Toast, BaseResponse, encoders
-- ════════════════════════════════════════════════════════════

/-- Toast record of `response.rs`. -/
structure Toast where
  message : String
  level : String
deriving DecidableEq

/-- A cookie record (the `cookie::Cookie` values the crate renders into
`Set-Cookie` header values); `attrs` are the rendered attribute pairs. -/
structure Cookie where
  name : String
  value : String
  attrs : List (String × String)
deriving DecidableEq

/-- Directive accumulator of `response.rs` (`BaseResponse`). -/
structure BaseResponse where
  headers : List (String × String) := []
  cookies : List Cookie := []
  toasts : List Toast := []

/-- Transport-level response bodies: HTML markup, a JSON value (the text on
the wire is its serialization), plain text (axum `(StatusCode, &str)`), the
empty body of a bare status code, or a redirect's empty body. -/
inductive Body where
  | htmlBody (markup : String)
  | jsonBody (payload : Json)
  | textBody (text : String)
  | emptyBody
  | redirectBody

/-- Model of an axum `Response`.  `Set-Cookie` headers are carried
structurally in `setCookies` (appended, never overwritten, exactly like
`headers_mut().append(SET_COOKIE, ...)`); all other headers live in
`headers`. -/
structure HttpResponse where
  status : Nat
  headers : List (String × String)
  setCookies : List Cookie
  body : Body

/-- Embedding of `HeaderMap::insert`: last write wins for a given name. -/
def insertHeader : List (String × String) → String → String → List (String × String)
  | [], n, v => [(n, v)]
  | (m, w) :: rest, n, v =>
    if m == n then (n, v) :: rest else (m, w) :: insertHeader rest n v

-- ── URL-encoding and header-value validity (urlencoding / http crates) ──

/-- Uppercase hexadecimal digit of `n` (as used by `urlencoding::encode`;
defined for all `n`, callers pass values below 16). -/
def hexDigit (n : Nat) : Char :=
  (Nat.digitChar (n % 16)).toUpper

/-- UTF-8 encoding of a character, as a list of byte values. -/
def utf8Bytes (c : Char) : List Nat :=
  let n := c.toNat
  if n < 0x80 then [n]
  else if n < 0x800 then
    [0xC0 + n / 64, 0x80 + n % 64]
  else if n < 0x10000 then
    [0xE0 + n / 4096, 0x80 + n / 64 % 64, 0x80 + n % 64]
  else
    [0xF0 + n / 262144, 0x80 + n / 4096 % 64, 0x80 + n / 64 % 64, 0x80 + n % 64]

/-- The characters `urlencoding::encode` leaves unencoded:
`A-Z a-z 0-9 - . _ ~`. -/
def isUnreservedChar (c : Char) : Bool :=
  (65 ≤ c.toNat && c.toNat ≤ 90) || (97 ≤ c.toNat && c.toNat ≤ 122) ||
  (48 ≤ c.toNat && c.toNat ≤ 57) ||
  c.toNat == 45 || c.toNat == 46 || c.toNat == 95 || c.toNat == 126

/-- Percent-encode a list of byte values. -/
def percentBytes : List Nat → List Char
  | [] => []
  | b :: bs => '%' :: hexDigit (b / 16) :: hexDigit (b % 16) :: percentBytes bs

/-- Embedding of `urlencoding::encode` over a character list: unreserved characters are
kept, every other character has each of its UTF-8 bytes percent-encoded. -/
def urlencodeChars : List Char → List Char
  | [] => []
  | c :: cs =>
    (if isUnreservedChar c then [c] else percentBytes (utf8Bytes c)) ++ urlencodeChars cs

/-- Embedding of `urlencoding::encode` on strings. -/
def urlencode (s : String) : String :=
  String.mk (urlencodeChars s.data)

/-- Byte-level validity test of `http::HeaderValue::from_str`: tab, or any
byte that is at least 32 and not DEL.  (Characters above U+007F encode to
UTF-8 bytes that are all ≥ 0x80 and hence accepted, so the check is exactly
this character-level predicate.) -/
def validHeaderChar (c : Char) : Bool :=
  c.toNat == 9 || (32 ≤ c.toNat && c.toNat != 127)

/-- Whether `HeaderValue::from_str` accepts the string. -/
def isValidHeaderValue (s : String) : Bool :=
  s.data.all validHeaderChar

-- ── JSON text rendering (serde_json::to_string) ──

/-- Lowercase hexadecimal digit of `n` (as used by serde_json escapes). -/
def hexDigitLower (n : Nat) : Char :=
  Nat.digitChar (n % 16)

/-- serde_json string escaping of one character: `"` and `\` are
backslash-escaped, the five control characters with short forms use them,
remaining control characters use a `\u00xx` escape, everything else is
emitted verbatim. -/
def jsonEscapeChar (c : Char) : List Char :=
  if c == '"' then ['\\', '"']
  else if c == '\\' then ['\\', '\\']
  else if c.toNat == 8 then ['\\', 'b']
  else if c.toNat == 9 then ['\\', 't']
  else if c.toNat == 10 then ['\\', 'n']
  else if c.toNat == 12 then ['\\', 'f']
  else if c.toNat == 13 then ['\\', 'r']
  else if c.toNat < 32 then
    ['\\', 'u', '0', '0', hexDigitLower (c.toNat / 16), hexDigitLower (c.toNat % 16)]
  else [c]

/-- serde_json string escaping of a character list. -/
def jsonEscapeChars : List Char → List Char
  | [] => []
  | c :: cs => jsonEscapeChar c ++ jsonEscapeChars cs

/-- serde_json rendering of a string literal, quotes included. -/
def renderJsonString (s : String) : String :=
  "\"" ++ String.mk (jsonEscapeChars s.data) ++ "\""

mutual

/-- Embedding of `serde_json::to_string`: compact rendering of a JSON value. -/
def renderJson : Json → String
  | .null => "null"
  | .bool true => "true"
  | .bool false => "false"
  | .num n => toString n
  | .str s => renderJsonString s
  | .arr elems => "[" ++ renderJsonArr elems ++ "]"
  | .obj fields => "\x7b" ++ renderJsonObj fields ++ "\x7d"

/-- Comma-separated rendering of array elements. -/
def renderJsonArr : List Json → String
  | [] => ""
  | [x] => renderJson x
  | x :: y :: rest => renderJson x ++ "," ++ renderJsonArr (y :: rest)

/-- Comma-separated rendering of object fields. -/
def renderJsonObj : List (String × Json) → String
  | [] => ""
  | [(k, v)] => renderJsonString k ++ ":" ++ renderJson v
  | (k, v) :: p :: rest =>
    renderJsonString k ++ ":" ++ renderJson v ++ "," ++ renderJsonObj (p :: rest)

end

/-- serde serialization of `Vec<Toast>`: an array of objects with the
struct's fields in declaration order (`message`, then `level`). -/
def toastsToJson (toasts : List Toast) : Json :=
  .arr (toasts.map (fun t => .obj [("message", .str t.message), ("level", .str t.level)]))

/-- Rendering of a cookie into a `Set-Cookie` header value
(`cookie::Cookie::to_string`): `name=value` followed by the attributes. -/
def attrsString : List (String × String) → String
  | [] => ""
  | (k, v) :: rest => "; " ++ k ++ "=" ++ v ++ attrsString rest

/-- Rendering of a `cookie::Cookie` via its `Display` impl. -/
def cookieToString (c : Cookie) : String :=
  c.name ++ "=" ++ c.value ++ attrsString c.attrs

/-- The attribute pairs of the toast cookie built in `apply_toast_cookies`
(`.path("/").same_site(Lax).max_age(5 seconds)`), in the cookie crate's
`Display` order. -/
def toastCookieAttrs : List (String × String) :=
  [("SameSite", "Lax"), ("Path", "/"), ("Max-Age", "5")]

/-- The toast-transport cookie for a given toast sequence: name
`silcrow_toasts`, value the URL-encoded JSON serialization of the toasts. -/
def toastCookie (toasts : List Toast) : Cookie :=
  { name := "silcrow_toasts"
    value := urlencode (renderJson (toastsToJson toasts))
    attrs := toastCookieAttrs }

/-- Embedding of `BaseResponse::apply_to_response` (response.rs lines 29-41): insert every
accumulated header (last write wins), then append a `Set-Cookie` entry for
every cookie whose rendering is a legal header value. -/
def BaseResponse.apply_to_response (self : BaseResponse) (response : HttpResponse) :
    HttpResponse :=
  { response with
    headers := self.headers.foldl (fun hs p => insertHeader hs p.1 p.2) response.headers
    setCookies :=
      response.setCookies ++ self.cookies.filter (fun c => isValidHeaderValue (cookieToString c)) }

/-- Embedding of `BaseResponse::apply_toast_cookies` (response.rs lines 45-62): when the
toast sequence is non-empty, serialize it to JSON, URL-encode it, and append
it as the single `silcrow_toasts` cookie (subject to the same header-value
guard; `serde_json::to_string` of a vector of string-field structs cannot
fail, so it is modelled as total). -/
def BaseResponse.apply_toast_cookies (self : BaseResponse) (response : HttpResponse) :
    HttpResponse :=
  if self.toasts.isEmpty then response
  else
    let cookie := toastCookie self.toasts
    if isValidHeaderValue (cookieToString cookie) then
      { response with setCookies := response.setCookies ++ [cookie] }
    else response

/-- HTML response wrapper of `response.rs`. -/
structure HtmlResponse where
  data : String
  base : BaseResponse

/-- Embedding of `HtmlResponse::into_response` (response.rs lines 170-177): a 200 response
with the markup as the body, then `apply_to_response`, then
`apply_toast_cookies`. -/
def HtmlResponse.into_response (self : HtmlResponse) : HttpResponse :=
  self.base.apply_toast_cookies (self.base.apply_to_response
    { status := 200, headers := [], setCookies := [], body := .htmlBody self.data })

/-- JSON response wrapper of `response.rs` (`JsonResponse<T>`).  `data` is the outcome of
`serde_json::to_value(&self.data)`: `some` of the value, or `none` when the
body fails to serialize. -/
structure JsonResponse where
  data : Option Json
  base : BaseResponse

/-- The response produced by `StatusCode::INTERNAL_SERVER_ERROR.into_response()`. -/
def internalServerErrorResponse : HttpResponse :=
  { status := 500, headers := [], setCookies := [], body := .emptyBody }

/-- Embedding of `JsonResponse::into_response` (response.rs lines 185-213): serialize the
body first, returning a bare 500 on failure; when toasts exist, insert
`_toasts` into an object payload in place, or wrap any other payload as
an object with fields `data` and `_toasts`; then apply headers and cookies
(but never the toast cookie). -/
def JsonResponse.into_response (self : JsonResponse) : HttpResponse :=
  match self.data with
  | none => internalServerErrorResponse
  | some payload =>
    let payload :=
      if self.base.toasts.isEmpty then payload
      else
        match payload with
        | .obj fields => .obj (objInsert fields "_toasts" (toastsToJson self.base.toasts))
        | other => .obj [("data", other), ("_toasts", toastsToJson self.base.toasts)]
    self.base.apply_to_response
      { status := 200, headers := [], setCookies := [], body := .jsonBody payload }

/-- Redirect response wrapper of `response.rs` (`NavigateResponse`). -/
structure NavigateResponse where
  path : String
  base : BaseResponse

/-- Embedding of `NavigateResponse::into_response` (response.rs lines 221-233): a redirect
to the path with status forced to 303, then `apply_to_response`, then
`apply_toast_cookies`. -/
def NavigateResponse.into_response (self : NavigateResponse) : HttpResponse :=
  self.base.apply_toast_cookies (self.base.apply_to_response
    { status := 303, headers := [("location", self.path)], setCookies := [],
      body := .redirectBody })

-- ════════════════════════════════════════════════════════════
-- select.rs : Responses, SilcrowRequest::select
-- ════════════════════════════════════════════════════════════

/-- A response producer (the boxed `FnOnce` closures of `select.rs`),
modelled as a state transformer so that side effects — and hence whether a
producer ran at all — are observable: the producer transforms an ambient
state `σ` and yields `Result<Response, E>`. -/
def Producer (σ E : Type) : Type :=
  σ → σ × Except E HttpResponse

/-- Builder of `select.rs` (`Responses<E>`): up to two lazily-supplied producers. -/
structure Responses (σ E : Type) where
  html : Option (Producer σ E)
  json : Option (Producer σ E)

/-- The `(StatusCode::NOT_ACCEPTABLE, msg).into_response()` result. -/
def notAcceptableResponse (msg : String) : HttpResponse :=
  { status := 406, headers := [], setCookies := [], body := .textBody msg }

/-- Embedding of `SilcrowRequest::select` (select.rs lines 122-139): evaluate
`preferred_mode` once and run only the matching producer, or return the 406
fallback without touching the state when that producer is absent. -/
def SilcrowRequest.select {σ E : Type} (self : SilcrowRequest)
    (responses : Responses σ E) (s : σ) : σ × Except E HttpResponse :=
  match self.preferred_mode with
  | .Html =>
    match responses.html with
    | some f => f s
    | none => (s, .ok (notAcceptableResponse "HTML not provided"))
  | .Json =>
    match responses.json with
    | some f => f s
    | none => (s, .ok (notAcceptableResponse "JSON not provided"))

-- ════════════════════════════════════════════════════════════
-- ws.rs : WsEvent, WsRecvError, WsStream::recv
-- ════════════════════════════════════════════════════════════

/-- Event enum of `ws.rs` (`WsEvent`, five variants; the custom variant's payload fields
are named `event` and `data` in the source). -/
inductive WsEvent where
  | Patch (target : String) (data : Json)
  | Html (target : String) (markup : String)
  | Invalidate (target : String)
  | Navigate (path : String)
  | Custom (event : String) (data : Json)

/-- Serde serialization of `WsEvent` under
`#[serde(tag = "type", rename_all = "snake_case")]`: a single JSON object
holding the snake-cased variant name under `type` followed by the variant's
fields in declaration order. -/
def wsEventToJson : WsEvent → Json
  | .Patch target data =>
    .obj [("type", .str "patch"), ("target", .str target), ("data", data)]
  | .Html target markup =>
    .obj [("type", .str "html"), ("target", .str target), ("markup", .str markup)]
  | .Invalidate target =>
    .obj [("type", .str "invalidate"), ("target", .str target)]
  | .Navigate path =>
    .obj [("type", .str "navigate"), ("path", .str path)]
  | .Custom event data =>
    .obj [("type", .str "custom"), ("event", .str event), ("data", data)]

/-- Serde deserialization of `WsEvent` (internally tagged): the value must be
an object whose `type` field is one of the five tags; the variant's fields
are then read by name, strings requiring JSON strings and `data` accepting
any value.  Unknown extra fields are ignored (serde's default). -/
def wsEventFromJson (j : Json) : Option WsEvent :=
  match j with
  | .obj fields =>
    match objLookup fields "type" with
    | some (.str tag) =>
      if tag == "patch" then
        match objLookup fields "target", objLookup fields "data" with
        | some (.str target), some data => some (.Patch target data)
        | _, _ => none
      else if tag == "html" then
        match objLookup fields "target", objLookup fields "markup" with
        | some (.str target), some (.str markup) => some (.Html target markup)
        | _, _ => none
      else if tag == "invalidate" then
        match objLookup fields "target" with
        | some (.str target) => some (.Invalidate target)
        | _ => none
      else if tag == "navigate" then
        match objLookup fields "path" with
        | some (.str path) => some (.Navigate path)
        | _ => none
      else if tag == "custom" then
        match objLookup fields "event", objLookup fields "data" with
        | some (.str event), some data => some (.Custom event data)
        | _, _ => none
      else none
    | _ => none
  | _ => none

/-- Receive-error enum of `ws.rs` (`WsRecvError`; the `serde_json::Error` payload of `Deserialize`
carries no information used by any property and is dropped). -/
inductive WsRecvError where
  | Deserialize
  | Closed
  | NonText
deriving DecidableEq

/-- An inbound WebSocket frame (axum `ws::Message`).  A text frame carries
the result of parsing its text as JSON: `some v` for well-formed JSON text,
`none` for text that is not valid JSON (so `serde_json::from_str` for
`WsEvent` is the parse composed with `wsEventFromJson`). -/
inductive WsMessage where
  | text (parsed : Option Json)
  | binary
  | ping
  | pong
  | close

/-- One step of the underlying socket: a message, or a transport-level
receive error (`Some(Err(_))` in the source). -/
def WsFrame : Type :=
  Except Unit WsMessage

/-- Embedding of `WsStream::recv` (ws.rs lines 235-250) over the remaining frame stream
(the empty list models an exhausted socket).  Returns the outcome together
with the frames still pending, which a later `recv` call would consume —
no outcome destroys the stream itself. -/
def wsRecv : List WsFrame → Option (Except WsRecvError WsEvent) × List WsFrame
  | [] => (none, [])
  | .error _ :: rest => (none, rest)
  | .ok m :: rest =>
    match m with
    | .text parsed =>
      match parsed.bind wsEventFromJson with
      | some event => (some (.ok event), rest)
      | none => (some (.error .Deserialize), rest)
    | .close => (some (.error .Closed), rest)
    | .ping => wsRecv rest
    | .pong => wsRecv rest
    | .binary => (some (.error .NonText), rest)

-- ════════════════════════════════════════════════════════════
-- Helper observations on responses
-- ════════════════════════════════════════════════════════════

/-- The toast-transport cookies among a response's `Set-Cookie` entries. -/
def toastCookiesOf (r : HttpResponse) : List Cookie :=
  r.setCookies.filter (fun c => c.name == "silcrow_toasts")

/-- Lookup of a field of a response's JSON body (`none` for other bodies). -/
def responseBodyLookup (r : HttpResponse) (k : String) : Option Json :=
  match r.body with
  | .jsonBody j => j.lookup k
  | _ => none

-- ════════════════════════════════════════════════════════════
-- C1: Accept negotiation
-- ════════════════════════════════════════════════════════════

/-- Claim C1 counterexample: the claim predicts that
`Accept: text/html;q=0.9, application/json;q=1.0` (no push-client marker)
resolves to Json under a max-q-per-media-type computation; the code's
substring-containment flags make it resolve to Html instead. -/
theorem c1_counterexample :
    (from_request_parts
      [("accept", "text/html;q=0.9, application/json;q=1.0")]).preferred_mode
      ≠ RequestMode.Json := by
  decide

/-- Claim C1 (amended): `accepts_html` / `accepts_json` are plain substring
containment tests for `text/html` / `application/json` on the Accept header
(no q-value parsing), so both example headers set both flags, and with no
push-client marker both resolve to Html. -/
theorem c1_substring_negotiation :
    (from_request_parts
        [("accept", "text/html;q=0.9, application/json;q=1.0")]).preferred_mode
      = RequestMode.Html
    ∧ (from_request_parts
        [("accept", "text/html;q=0.9, application/json;q=1.0")]).accepts_html = true
    ∧ (from_request_parts
        [("accept", "text/html;q=0.9, application/json;q=1.0")]).accepts_json = true
    ∧ (from_request_parts
        [("accept", "text/html, application/json;q=0.8")]).preferred_mode
      = RequestMode.Html := by
  refine ⟨by decide, by decide, by decide, by decide⟩

-- ════════════════════════════════════════════════════════════
-- C6: totality of the mode fallback
-- ════════════════════════════════════════════════════════════

/-- Claim C6: when neither `accepts_html` nor `accepts_json` holds, the
resolved mode is Json whether or not the push-client marker is present —
the resolver is total and deterministic. -/
theorem c6_no_usable_mode_defaults_to_json :
    ∀ marker : Bool,
      (SilcrowRequest.mk marker false false).preferred_mode = RequestMode.Json := by
  intro marker
  cases marker <;> rfl

-- ════════════════════════════════════════════════════════════
-- C7: serialization failure yields a bare 500
-- ════════════════════════════════════════════════════════════

/-- Claim C7: when the JSON body value fails to serialize, the encoded
response is the bare 500 internal-server-error response, independent of the
accumulated directives — no header, cookie or toast derived from the request
reaches the output. -/
theorem c7_serialization_failure_yields_500 :
    ∀ base : BaseResponse,
      JsonResponse.into_response ⟨none, base⟩ = internalServerErrorResponse := by
  intro base
  rfl

-- ════════════════════════════════════════════════════════════
-- C5: WS wire format
-- ════════════════════════════════════════════════════════════

/-- Claim C5 counterexample: the serialized form of a Custom event carries
its payload under the field `event` (per the source's field name), not under
`name` as the claim states. -/
theorem c5_counterexample :
    (wsEventToJson (.Custom "refresh" (.str "x"))).lookup "name" = none
    ∧ (wsEventToJson (.Custom "refresh" (.str "x"))).lookup "event"
      = some (.str "refresh") := by
  exact ⟨rfl, rfl⟩

/-- Claim C5 (amended): every serialized event is a single JSON object with
discriminant field `type` in \x7bpatch, html, invalidate, navigate, custom\x7d and
variant fields target+data, target+markup, target, path, and event+data
respectively (the custom variant's field is `event`, not `name`). -/
theorem c5_wire_format :
    ∀ e : WsEvent, ∃ fields, wsEventToJson e = .obj fields ∧
      match e with
      | .Patch target data =>
          objLookup fields "type" = some (.str "patch")
          ∧ objLookup fields "target" = some (.str target)
          ∧ objLookup fields "data" = some data
      | .Html target markup =>
          objLookup fields "type" = some (.str "html")
          ∧ objLookup fields "target" = some (.str target)
          ∧ objLookup fields "markup" = some (.str markup)
      | .Invalidate target =>
          objLookup fields "type" = some (.str "invalidate")
          ∧ objLookup fields "target" = some (.str target)
      | .Navigate path =>
          objLookup fields "type" = some (.str "navigate")
          ∧ objLookup fields "path" = some (.str path)
      | .Custom event data =>
          objLookup fields "type" = some (.str "custom")
          ∧ objLookup fields "event" = some (.str event)
          ∧ objLookup fields "data" = some data := by
  intro e
  cases e with
  | Patch target data => exact ⟨_, rfl, rfl, rfl, rfl⟩
  | Html target markup => exact ⟨_, rfl, rfl, rfl, rfl⟩
  | Invalidate target => exact ⟨_, rfl, rfl, rfl⟩
  | Navigate path => exact ⟨_, rfl, rfl, rfl⟩
  | Custom event data => exact ⟨_, rfl, rfl, rfl, rfl⟩

-- ════════════════════════════════════════════════════════════
-- C8: WS round trip
-- ════════════════════════════════════════════════════════════

/-- Claim C8: serializing any of the five event variants to its JSON wire
form and deserializing it back reproduces the original variant with all
fields exactly equal. -/
theorem c8_ws_round_trip :
    ∀ e : WsEvent, wsEventFromJson (wsEventToJson e) = some e := by
  intro e
  cases e <;> rfl

-- ════════════════════════════════════════════════════════════
-- C10: transport receive errors are reported as stream end
-- ════════════════════════════════════════════════════════════

/-- Claim C10: `recv` returns `none` both when the socket's message stream
is exhausted and when the transport yields a receive error — a transport
failure is reported identically to graceful end, never as a typed
`WsRecvError`. -/
theorem c10_transport_error_is_none :
    (∀ rest : List WsFrame, wsRecv (.error () :: rest) = (none, rest))
    ∧ wsRecv ([] : List WsFrame) = (none, []) := by
  exact ⟨fun _ => rfl, rfl⟩

-- ════════════════════════════════════════════════════════════
-- C2: the selector runs exactly the matching producer
-- ════════════════════════════════════════════════════════════

/-- Claim C2: `select` executes exactly the producer matching the resolved
mode — the result (state effects included) is exactly that producer's, is
independent of the non-matching producer, and when the matching producer is
absent it is the 406 not-acceptable response with the state untouched, so no
producer ran. -/
theorem c2_select_runs_only_matching_producer {σ E : Type}
    (req : SilcrowRequest) (resp : Responses σ E) (s : σ) :
    (∀ fj' : Option (Producer σ E), req.preferred_mode = .Html →
        req.select resp s = req.select { resp with json := fj' } s)
    ∧ (∀ fh' : Option (Producer σ E), req.preferred_mode = .Json →
        req.select resp s = req.select { resp with html := fh' } s)
    ∧ (∀ f : Producer σ E, req.preferred_mode = .Html → resp.html = some f →
        req.select resp s = f s)
    ∧ (∀ f : Producer σ E, req.preferred_mode = .Json → resp.json = some f →
        req.select resp s = f s)
    ∧ (req.preferred_mode = .Html → resp.html = none →
        req.select resp s = (s, .ok (notAcceptableResponse "HTML not provided")))
    ∧ (req.preferred_mode = .Json → resp.json = none →
        req.select resp s = (s, .ok (notAcceptableResponse "JSON not provided"))) := by
  refine ⟨?_, ?_, ?_, ?_, ?_, ?_⟩
  · intro fj' h
    simp [SilcrowRequest.select, h]
  · intro fh' h
    simp [SilcrowRequest.select, h]
  · intro f h hf
    simp [SilcrowRequest.select, h, hf]
  · intro f h hf
    simp [SilcrowRequest.select, h, hf]
  · intro h hf
    simp [SilcrowRequest.select, h, hf]
  · intro h hf
    simp [SilcrowRequest.select, h, hf]

/-- Witness for C2: with an Html-mode request and counting producers, only
the html producer's effect occurs; with a Json-mode request and no json
producer, the 406 fallback is returned with the state untouched. -/
theorem c2_select_witness :
    SilcrowRequest.select (σ := Nat) (E := Unit) ⟨false, true, true⟩
        ⟨some (fun n => (n + 1, .ok internalServerErrorResponse)),
         some (fun n => (n + 7, .ok internalServerErrorResponse))⟩ 0
      = (1, .ok internalServerErrorResponse)
    ∧ SilcrowRequest.select (σ := Nat) (E := Unit) ⟨false, false, false⟩
        ⟨some (fun n => (n + 1, .ok internalServerErrorResponse)), none⟩ 0
      = (0, .ok (notAcceptableResponse "JSON not provided")) := by
  exact ⟨(c2_select_runs_only_matching_producer ⟨false, true, true⟩ _ 0).2.2.1 _ rfl rfl,
    (c2_select_runs_only_matching_producer ⟨false, false, false⟩ _ 0).2.2.2.2.2 rfl rfl⟩

-- ════════════════════════════════════════════════════════════
-- C9: WS receive classification
-- ════════════════════════════════════════════════════════════

/-- Claim C9: `recv` classifies inbound frames as specified — text that is
not valid WsEvent JSON yields `Deserialize`, valid text yields the event, a
close frame yields `Closed`, a binary frame yields `NonText`, and ping/pong
frames are skipped without ever being surfaced; every outcome leaves the
remaining frame stream available to further receives, so none of them
terminates the connection object itself. -/
theorem c9_recv_classification :
    (∀ (parsed : Option Json) (rest : List WsFrame),
        parsed.bind wsEventFromJson = none →
        wsRecv (.ok (.text parsed) :: rest) = (some (.error .Deserialize), rest))
    ∧ (∀ (parsed : Option Json) (e : WsEvent) (rest : List WsFrame),
        parsed.bind wsEventFromJson = some e →
        wsRecv (.ok (.text parsed) :: rest) = (some (.ok e), rest))
    ∧ (∀ rest : List WsFrame,
        wsRecv (.ok .close :: rest) = (some (.error .Closed), rest))
    ∧ (∀ rest : List WsFrame,
        wsRecv (.ok .binary :: rest) = (some (.error .NonText), rest))
    ∧ (∀ rest : List WsFrame, wsRecv (.ok .ping :: rest) = wsRecv rest)
    ∧ (∀ rest : List WsFrame, wsRecv (.ok .pong :: rest) = wsRecv rest) := by
  refine ⟨?_, ?_, fun _ => rfl, fun _ => rfl, fun _ => rfl, fun _ => rfl⟩
  · intro parsed rest h
    simp [wsRecv, h]
  · intro parsed e rest h
    simp [wsRecv, h]

/-- Witness for C9: a text frame whose text is not valid JSON yields a
`Deserialize` error, and a well-formed navigate message yields the event;
both leave the (here empty) remainder of the stream intact. -/
theorem c9_recv_witness :
    wsRecv [.ok (.text none)] = (some (.error .Deserialize), [])
    ∧ wsRecv [.ok (.text (some (.obj [("type", .str "navigate"), ("path", .str "/x")])))]
      = (some (.ok (.Navigate "/x")), []) := by
  exact ⟨c9_recv_classification.1 none [] rfl,
    c9_recv_classification.2.1 _ (.Navigate "/x") [] rfl⟩

-- ════════════════════════════════════════════════════════════
-- Validity of the toast cookie's header value
-- ════════════════════════════════════════════════════════════

theorem validHeaderChar_hexDigit (n : Nat) : validHeaderChar (hexDigit n) = true := by
  have h : ∀ m, m < 16 → validHeaderChar (Nat.digitChar m).toUpper = true := by decide
  exact h (n % 16) (Nat.mod_lt _ (by omega))

theorem all_validHeaderChar_percentBytes (bs : List Nat) :
    (percentBytes bs).all validHeaderChar = true := by
  induction bs with
  | nil => rfl
  | cons b bs ih =>
    simp [percentBytes, List.all_cons, ih, validHeaderChar_hexDigit,
      show validHeaderChar '%' = true from by decide]

theorem validHeaderChar_of_unreserved {c : Char} (h : isUnreservedChar c = true) :
    validHeaderChar c = true := by
  have h' : (65 ≤ c.toNat ∧ c.toNat ≤ 90) ∨ (97 ≤ c.toNat ∧ c.toNat ≤ 122) ∨
      (48 ≤ c.toNat ∧ c.toNat ≤ 57) ∨ c.toNat = 45 ∨ c.toNat = 46 ∨
      c.toNat = 95 ∨ c.toNat = 126 := by
    simpa [isUnreservedChar, or_assoc] using h
  simp only [validHeaderChar, Bool.or_eq_true, Bool.and_eq_true, decide_eq_true_eq,
    bne_iff_ne, ne_eq, beq_iff_eq]
  omega

theorem all_validHeaderChar_urlencodeChars (cs : List Char) :
    (urlencodeChars cs).all validHeaderChar = true := by
  induction cs with
  | nil => rfl
  | cons c cs ih =>
    rw [urlencodeChars, List.all_append, ih, Bool.and_true]
    cases hc : isUnreservedChar c with
    | true => simp [validHeaderChar_of_unreserved hc]
    | false => simp [all_validHeaderChar_percentBytes]

theorem data_string_mk (l : List Char) : (String.mk l).data = l := rfl

theorem toastCookie_headerValue_valid (toasts : List Toast) :
    isValidHeaderValue (cookieToString (toastCookie toasts)) = true := by
  rw [cookieToString, toastCookie, isValidHeaderValue]
  simp only [String.data_append, List.all_append, Bool.and_eq_true]
  refine ⟨⟨⟨by decide, by decide⟩, ?_⟩, by decide⟩
  rw [urlencode, data_string_mk]
  exact all_validHeaderChar_urlencodeChars _

-- ════════════════════════════════════════════════════════════
-- Lookup through objInsert
-- ════════════════════════════════════════════════════════════

theorem objLookup_insert_self (fs : List (String × Json)) (k : String) (v : Json) :
    objLookup (objInsert fs k v) k = some v := by
  induction fs with
  | nil => simp [objInsert, objLookup, List.find?]
  | cons p rest ih =>
    by_cases h : p.1 == k
    · simp [objInsert, h, objLookup, List.find?]
    · simpa [objInsert, h, objLookup, List.find?] using ih

theorem objLookup_insert_ne (fs : List (String × Json)) (k k' : String) (v : Json)
    (hne : ¬ k' = k) : objLookup (objInsert fs k v) k' = objLookup fs k' := by
  induction fs with
  | nil =>
    simp only [objInsert, objLookup, List.find?]
    have : (k == k') = false := by
      simp only [beq_eq_false_iff_ne, ne_eq]
      exact fun h => hne h.symm
    simp [this]
  | cons p rest ih =>
    by_cases h : p.1 == k
    · have hk : p.1 = k := by simpa using h
      have hkk : (k == k') = false := by
        simp only [beq_eq_false_iff_ne, ne_eq]
        exact fun h => hne h.symm
      by_cases h' : p.1 == k'
      · exact absurd (by simpa using h') (by rw [hk]; exact fun hh => hne hh.symm)
      · simp [objInsert, h, objLookup, List.find?, hkk, hk, h']
    · by_cases h' : p.1 == k'
      · simp [objInsert, h, objLookup, List.find?, h']
      · simpa [objInsert, h, objLookup, List.find?, h'] using ih

theorem isEmpty_false_of_ne_nil {α : Type} {l : List α} (h : l ≠ []) :
    l.isEmpty = false := by
  cases l with
  | nil => exact absurd rfl h
  | cons a t => rfl

theorem toastCookie_name (toasts : List Toast) :
    (toastCookie toasts).name = "silcrow_toasts" := rfl

theorem filter_toast_name_base_cookies (base : BaseResponse)
    (hcook : ∀ c ∈ base.cookies, c.name ≠ "silcrow_toasts") :
    (base.cookies.filter (fun c => isValidHeaderValue (cookieToString c))).filter
      (fun c => c.name == "silcrow_toasts") = [] := by
  rw [List.filter_eq_nil_iff]
  intro c hc
  have hmem : c ∈ base.cookies := (List.mem_filter.mp hc).1
  simpa using hcook c hmem

-- ════════════════════════════════════════════════════════════
-- C3: toasts travel through exactly one channel
-- ════════════════════════════════════════════════════════════

/-- Claim C3: a non-empty toast sequence reaches the encoded response
through exactly one channel — for HTML and Navigate responses, exactly one
`silcrow_toasts` cookie (and the body is untouched by toasts); for JSON
responses, the `_toasts` field of the JSON body (and no `silcrow_toasts`
cookie at all).  The hypothesis on `base.cookies` just says the application
did not itself use the reserved cookie name. -/
theorem c3_toasts_exactly_one_channel (base : BaseResponse)
    (markup path : String) (payload : Json)
    (hne : base.toasts ≠ [])
    (hcook : ∀ c ∈ base.cookies, c.name ≠ "silcrow_toasts") :
    (toastCookiesOf (HtmlResponse.into_response ⟨markup, base⟩)
        = [toastCookie base.toasts]
      ∧ (HtmlResponse.into_response ⟨markup, base⟩).body = .htmlBody markup)
    ∧ (toastCookiesOf (NavigateResponse.into_response ⟨path, base⟩)
        = [toastCookie base.toasts]
      ∧ (NavigateResponse.into_response ⟨path, base⟩).body = .redirectBody)
    ∧ (toastCookiesOf (JsonResponse.into_response ⟨some payload, base⟩) = []
      ∧ ∃ out, (JsonResponse.into_response ⟨some payload, base⟩).body = .jsonBody out
          ∧ out.lookup "_toasts" = some (toastsToJson base.toasts)) := by
  have hempty := isEmpty_false_of_ne_nil hne
  have hvalid := toastCookie_headerValue_valid base.toasts
  have hfilter := filter_toast_name_base_cookies base hcook
  refine ⟨⟨?_, ?_⟩, ⟨?_, ?_⟩, ?_, ?_⟩
  · simp [HtmlResponse.into_response, BaseResponse.apply_toast_cookies,
      BaseResponse.apply_to_response, toastCookiesOf, hempty, hvalid,
      List.filter_append, hfilter, toastCookie_name]
  · simp [HtmlResponse.into_response, BaseResponse.apply_toast_cookies,
      BaseResponse.apply_to_response, hempty, hvalid]
  · simp [NavigateResponse.into_response, BaseResponse.apply_toast_cookies,
      BaseResponse.apply_to_response, toastCookiesOf, hempty, hvalid,
      List.filter_append, hfilter, toastCookie_name]
  · simp [NavigateResponse.into_response, BaseResponse.apply_toast_cookies,
      BaseResponse.apply_to_response, hempty, hvalid]
  · simp [JsonResponse.into_response, BaseResponse.apply_to_response,
      toastCookiesOf, hempty, hfilter]
  · cases payload with
    | obj fields =>
      exact ⟨.obj (objInsert fields "_toasts" (toastsToJson base.toasts)),
        by simp [JsonResponse.into_response, BaseResponse.apply_to_response, hempty],
        by simpa [Json.lookup] using
          objLookup_insert_self fields "_toasts" (toastsToJson base.toasts)⟩
    | null =>
      exact ⟨.obj [("data", .null), ("_toasts", toastsToJson base.toasts)],
        by simp [JsonResponse.into_response, BaseResponse.apply_to_response, hempty], rfl⟩
    | bool b =>
      exact ⟨.obj [("data", .bool b), ("_toasts", toastsToJson base.toasts)],
        by simp [JsonResponse.into_response, BaseResponse.apply_to_response, hempty], rfl⟩
    | num n =>
      exact ⟨.obj [("data", .num n), ("_toasts", toastsToJson base.toasts)],
        by simp [JsonResponse.into_response, BaseResponse.apply_to_response, hempty], rfl⟩
    | str s =>
      exact ⟨.obj [("data", .str s), ("_toasts", toastsToJson base.toasts)],
        by simp [JsonResponse.into_response, BaseResponse.apply_to_response, hempty], rfl⟩
    | arr elems =>
      exact ⟨.obj [("data", .arr elems), ("_toasts", toastsToJson base.toasts)],
        by simp [JsonResponse.into_response, BaseResponse.apply_to_response, hempty], rfl⟩

/-- Witness for C3: a response carrying exactly one toast and no
application cookies gets exactly the single toast cookie on its HTML
encoding. -/
theorem c3_toasts_witness :
    toastCookiesOf
        (HtmlResponse.into_response ⟨"<h1>Hello</h1>", ⟨[], [], [⟨"Saved", "success"⟩]⟩⟩)
      = [toastCookie [⟨"Saved", "success"⟩]] :=
  (c3_toasts_exactly_one_channel ⟨[], [], [⟨"Saved", "success"⟩]⟩ "<h1>Hello</h1>" "/p"
    .null (List.cons_ne_nil _ _) (by simp)).1.1

-- ════════════════════════════════════════════════════════════
-- C4: JSON envelope merge
-- ════════════════════════════════════════════════════════════

/-- Claim C4 counterexample: for the object payload with a pre-existing
`_toasts` field holding `1` and one toast, the encoder overwrites that field
with the toast array — the original field is not preserved, contradicting
the claim that the payload's fields are preserved unchanged in all cases. -/
theorem c4_counterexample :
    responseBodyLookup
        (JsonResponse.into_response
          ⟨some (.obj [("_toasts", .num 1)]), ⟨[], [], [⟨"Done", "info"⟩]⟩⟩) "_toasts"
      = some (toastsToJson [⟨"Done", "info"⟩])
    ∧ toastsToJson [⟨"Done", "info"⟩] ≠ Json.num 1 :=
  ⟨rfl, fun h => Json.noConfusion h⟩

/-- Claim C4 (amended): with a non-empty toast list, an object body gets a
`_toasts` field inserted in place — every field other than a pre-existing
`_toasts` is preserved unchanged, while a pre-existing `_toasts` field is
overwritten by the toast array — and any non-object body is wrapped as an
object with fields `data` (holding the original payload unchanged) and
`_toasts`. -/
theorem c4_json_envelope (base : BaseResponse) (fields : List (String × Json))
    (hne : base.toasts ≠ []) :
    ((JsonResponse.into_response ⟨some (.obj fields), base⟩).body
        = .jsonBody (.obj (objInsert fields "_toasts" (toastsToJson base.toasts))))
    ∧ (∀ k, ¬ k = "_toasts" →
        objLookup (objInsert fields "_toasts" (toastsToJson base.toasts)) k
          = objLookup fields k)
    ∧ (objLookup (objInsert fields "_toasts" (toastsToJson base.toasts)) "_toasts"
        = some (toastsToJson base.toasts))
    ∧ (∀ payload : Json, (∀ fs, ¬ payload = .obj fs) →
        (JsonResponse.into_response ⟨some payload, base⟩).body
          = .jsonBody (.obj [("data", payload), ("_toasts", toastsToJson base.toasts)])) := by
  have hempty := isEmpty_false_of_ne_nil hne
  refine ⟨?_, ?_, ?_, ?_⟩
  · simp [JsonResponse.into_response, BaseResponse.apply_to_response, hempty]
  · intro k hk
    exact objLookup_insert_ne fields "_toasts" k (toastsToJson base.toasts) hk
  · exact objLookup_insert_self fields "_toasts" (toastsToJson base.toasts)
  · intro payload hpayload
    cases payload with
    | obj fs => exact absurd rfl (hpayload fs)
    | null => simp [JsonResponse.into_response, BaseResponse.apply_to_response, hempty]
    | bool b => simp [JsonResponse.into_response, BaseResponse.apply_to_response, hempty]
    | num n => simp [JsonResponse.into_response, BaseResponse.apply_to_response, hempty]
    | str s => simp [JsonResponse.into_response, BaseResponse.apply_to_response, hempty]
    | arr elems => simp [JsonResponse.into_response, BaseResponse.apply_to_response, hempty]

/-- Witness for C4: the array `[1,2,3]` with one toast is wrapped as an
object with `data` holding the untouched array and `_toasts` the toasts. -/
theorem c4_json_envelope_witness :
    (JsonResponse.into_response
        ⟨some (.arr [.num 1, .num 2, .num 3]), ⟨[], [], [⟨"Saved", "success"⟩]⟩⟩).body
      = .jsonBody (.obj [("data", .arr [.num 1, .num 2, .num 3]),
          ("_toasts", toastsToJson [⟨"Saved", "success"⟩])]) :=
  (c4_json_envelope ⟨[], [], [⟨"Saved", "success"⟩]⟩ [] (List.cons_ne_nil _ _)).2.2.2
    (.arr [.num 1, .num 2, .num 3]) (fun _ h => Json.noConfusion h)

end Pilcrow
